import Mathlib

/-!
Verification of the request-orchestration core of the aerith-ingestion
repository, shallowly embedded in Lean 4.

Embedding conventions:
* Wall-clock time (`time.time()`) is passed explicitly as a rational `now`
  argument; Python floats are modelled as `ℚ`.
* Methods mutating `self` become functions `State → ... → State` (or
  `State × result`).
* Python exceptions are modelled with `Except String`.
-/

namespace Aerith

/-! ## CircuitBreaker — src/mvp/exp/backoff_config.py -/

inductive CircuitState where
  | closed
  | half_open
  | open_
deriving DecidableEq

structure CircuitBreakerConfig where
  failure_threshold : Nat := 5
  reset_timeout : ℚ := 60
  half_open_max_calls : Nat := 3
deriving DecidableEq

structure CircuitBreaker where
  config : CircuitBreakerConfig
  state : CircuitState := CircuitState.closed
  failures : Nat := 0
  last_failure_time : ℚ := 0
  half_open_calls : Nat := 0
deriving DecidableEq

/-- `CircuitBreaker.record_success` (backoff_config.py lines 45-51). -/
def CircuitBreaker.record_success (cb : CircuitBreaker) : CircuitBreaker :=
  if cb.state = CircuitState.half_open then
    { cb with state := CircuitState.closed, failures := 0, half_open_calls := 0 }
  else
    cb

/-- `CircuitBreaker.record_failure` (backoff_config.py lines 53-65); `now`
is the value of `time.time()`. -/
def CircuitBreaker.record_failure (cb : CircuitBreaker) (now : ℚ) : CircuitBreaker :=
  let cb1 := { cb with failures := cb.failures + 1, last_failure_time := now }
  if cb1.state = CircuitState.half_open then
    { cb1 with state := CircuitState.open_ }
  else if cb1.state = CircuitState.closed ∧ cb1.config.failure_threshold ≤ cb1.failures then
    { cb1 with state := CircuitState.open_ }
  else
    cb1

/-- `CircuitBreaker.allow_request` (backoff_config.py lines 67-86); returns
the updated breaker and the admission decision. -/
def CircuitBreaker.allow_request (cb : CircuitBreaker) (now : ℚ) : CircuitBreaker × Bool :=
  if cb.state = CircuitState.closed then
    (cb, true)
  else if cb.state = CircuitState.open_ then
    if cb.config.reset_timeout ≤ now - cb.last_failure_time then
      ({ cb with state := CircuitState.half_open, half_open_calls := 0 }, true)
    else
      (cb, false)
  else
    if cb.half_open_calls < cb.config.half_open_max_calls then
      ({ cb with half_open_calls := cb.half_open_calls + 1 }, true)
    else
      (cb, false)

/-- Iterate `allow_request` `n` times at a fixed instant, counting how many
calls were admitted. -/
def CircuitBreaker.allowRepeat (cb : CircuitBreaker) (now : ℚ) : Nat → CircuitBreaker × Nat
  | 0 => (cb, 0)
  | n + 1 =>
    let step := cb.allow_request now
    let rest := step.1.allowRepeat now n
    (rest.1, (if step.2 then 1 else 0) + rest.2)

/-- A breaker with the default configuration, fresh in the Closed state. -/
def cbInit : CircuitBreaker := { config := {} }

/-- A breaker with the default configuration that is currently Open after
five failures, the last at time 0. -/
def cbOpenEx : CircuitBreaker :=
  { config := {}, state := CircuitState.open_, failures := 5, last_failure_time := 0 }

lemma allowRepeat_half_open_count (n : Nat) (cb : CircuitBreaker) (now : ℚ)
    (h : cb.state = CircuitState.half_open) :
    (cb.allowRepeat now n).2
      = min n (cb.config.half_open_max_calls - cb.half_open_calls) := by
  induction n generalizing cb with
  | zero => simp [CircuitBreaker.allowRepeat]
  | succ n ih =>
    by_cases hc : cb.half_open_calls < cb.config.half_open_max_calls
    · have hstep : cb.allow_request now
          = ({ cb with half_open_calls := cb.half_open_calls + 1 }, true) := by
        simp [CircuitBreaker.allow_request, h, hc]
      have hrec := ih { cb with half_open_calls := cb.half_open_calls + 1 } (by simpa using h)
      simp only [CircuitBreaker.allowRepeat, hstep]
      simp only [hrec]
      simp only [if_true]
      omega
    · have hstep : cb.allow_request now = (cb, false) := by
        simp [CircuitBreaker.allow_request, h, hc]
      have hrec := ih cb h
      simp only [CircuitBreaker.allowRepeat, hstep]
      simp only [hrec]
      simp only [Bool.false_eq_true, if_false]
      omega

/-- A breaker with the default configuration that is currently HalfOpen with
no probes used yet. -/
def cbHalfEx : CircuitBreaker :=
  { config := {}, state := CircuitState.half_open, failures := 5,
    last_failure_time := 0, half_open_calls := 0 }

/-- C4 counterexample: with the default `failure_threshold = 5`, the trace
fail, fail, fail, fail, success, fail — in which the run of failures is
broken by a success while Closed — still opens the circuit, because
`record_success` does not reset the failure count in the Closed state (the
count is 4 after the success, and the fifth recorded failure opens). Under
the claim the success would have reset the count to 0 and the final failure
would leave the breaker Closed with one failure. -/
theorem C4_counterexample :
    (((((cbInit.record_failure 1).record_failure 2).record_failure
        3).record_failure 4).record_success).failures = 4
    ∧ ((((((cbInit.record_failure 1).record_failure 2).record_failure
        3).record_failure 4).record_success).record_failure 5).state
      = CircuitState.open_ := by
  decide

/-- C4 (amended): `record_failure` increments the count, and from the Closed
state transitions to Open exactly when the incremented cumulative failure
count reaches `failure_threshold`; but `record_success` in the Closed state
is a no-op and does not reset the count, so the opening run of failures need
not be consecutive. -/
theorem C4_closed_failure_accounting (cb : CircuitBreaker) (now : ℚ)
    (h : cb.state = CircuitState.closed) :
    ((cb.record_failure now).state = CircuitState.open_
        ↔ cb.config.failure_threshold ≤ cb.failures + 1)
    ∧ (cb.record_failure now).failures = cb.failures + 1
    ∧ cb.record_success = cb := by
  refine ⟨?_, ?_, ?_⟩
  · by_cases hth : cb.config.failure_threshold ≤ cb.failures + 1 <;>
      simp [CircuitBreaker.record_failure, h, hth]
  · by_cases hth : cb.config.failure_threshold ≤ cb.failures + 1 <;>
      simp [CircuitBreaker.record_failure, h, hth]
  · simp [CircuitBreaker.record_success, h]

/-- Witness for `C4_closed_failure_accounting` at a fresh default breaker. -/
theorem C4_witness :
    ((cbInit.record_failure 1).state = CircuitState.open_
        ↔ cbInit.config.failure_threshold ≤ cbInit.failures + 1)
    ∧ (cbInit.record_failure 1).failures = cbInit.failures + 1
    ∧ cbInit.record_success = cbInit :=
  C4_closed_failure_accounting cbInit 1 rfl

/-- C5 counterexample: with the default `half_open_max_calls = 3`, a breaker
that is Open with its last failure at time 0 admits 4 requests when
`allow_request` is called 5 times at time 60: the Open→HalfOpen transition
call returns true without consuming a probe slot, and then 3 further probes
are admitted — one more than the claim's cap of `half_open_max_calls`
admitted probes counting the transition call. -/
theorem C5_counterexample :
    (cbOpenEx.allowRepeat 60 5).2 = 4
    ∧ cbOpenEx.config.half_open_max_calls = 3 := by
  have h1 : cbOpenEx.allow_request 60 = (cbHalfEx, true) := by
    norm_num [CircuitBreaker.allow_request, cbOpenEx, cbHalfEx]
    decide
  refine ⟨?_, rfl⟩
  show (cbOpenEx.allowRepeat 60 (4 + 1)).2 = 4
  simp only [CircuitBreaker.allowRepeat, h1]
  decide

/-- C5 (amended): `allow_request` returns true in Closed; in Open with the
cooldown not yet elapsed it returns false; in Open with the cooldown elapsed
it transitions to HalfOpen (probe counter zeroed) and returns true; in
HalfOpen it returns true exactly while fewer than `half_open_max_calls`
probes have been counted — so one half-open episode admits up to
`half_open_max_calls` probes after (not counting) the transition call,
i.e. `half_open_max_calls + 1` in total counting the transition call. -/
theorem C5_allow_request_spec (cb : CircuitBreaker) (now : ℚ) (n : Nat) :
    (cb.state = CircuitState.closed → cb.allow_request now = (cb, true))
    ∧ (cb.state = CircuitState.open_ →
        now - cb.last_failure_time < cb.config.reset_timeout →
        cb.allow_request now = (cb, false))
    ∧ (cb.state = CircuitState.open_ →
        cb.config.reset_timeout ≤ now - cb.last_failure_time →
        cb.allow_request now
          = ({ cb with state := CircuitState.half_open, half_open_calls := 0 }, true))
    ∧ (cb.state = CircuitState.half_open →
        ((cb.allow_request now).2 = true
          ↔ cb.half_open_calls < cb.config.half_open_max_calls))
    ∧ (cb.state = CircuitState.half_open →
        (cb.allowRepeat now n).2
          = min n (cb.config.half_open_max_calls - cb.half_open_calls)) := by
  refine ⟨?_, ?_, ?_, ?_, ?_⟩
  · intro h; simp [CircuitBreaker.allow_request, h]
  · intro h h2; simp [CircuitBreaker.allow_request, h, not_le.mpr h2]
  · intro h h2; simp [CircuitBreaker.allow_request, h, h2]
  · intro h
    by_cases hc : cb.half_open_calls < cb.config.half_open_max_calls <;>
      simp [CircuitBreaker.allow_request, h, hc]
  · intro h; exact allowRepeat_half_open_count n cb now h

/-- Witness for `C5_allow_request_spec`, exercising every branch on concrete
breakers. -/
theorem C5_witness :
    cbInit.allow_request 0 = (cbInit, true)
    ∧ cbOpenEx.allow_request 30 = (cbOpenEx, false)
    ∧ cbOpenEx.allow_request 60
        = ({ cbOpenEx with state := CircuitState.half_open, half_open_calls := 0 }, true)
    ∧ (((cbHalfEx.allow_request 0).2 = true)
        ↔ cbHalfEx.half_open_calls < cbHalfEx.config.half_open_max_calls)
    ∧ (cbHalfEx.allowRepeat 0 5).2
        = min 5 (cbHalfEx.config.half_open_max_calls - cbHalfEx.half_open_calls) :=
  ⟨(C5_allow_request_spec cbInit 0 5).1 rfl,
   (C5_allow_request_spec cbOpenEx 30 5).2.1 rfl (by norm_num [cbOpenEx]),
   (C5_allow_request_spec cbOpenEx 60 5).2.2.1 rfl (by norm_num [cbOpenEx]),
   (C5_allow_request_spec cbHalfEx 0 5).2.2.2.1 rfl,
   (C5_allow_request_spec cbHalfEx 0 5).2.2.2.2 rfl⟩

/-! ## Retry loop — `BackoffConfig.exponential_backoff` and
`BackoffConfig.is_retryable_error` (backoff_config.py) -/

/-- Python `str.lower()`. -/
def lowerStr (s : String) : String := String.mk (s.toList.map Char.toLower)

/-- Whether `pat` occurs at the head of `hay`. -/
def startsWithChars : List Char → List Char → Bool
  | _, [] => true
  | [], _ :: _ => false
  | a :: as, b :: bs => a == b && startsWithChars as bs

/-- Whether `pat` occurs somewhere inside `hay` (Python `pat in hay`). -/
def containsChars : List Char → List Char → Bool
  | [], pat => startsWithChars [] pat
  | hay@(_ :: t), pat => startsWithChars hay pat || containsChars t pat

/-- Python `pat in s` on strings. -/
def strContainsSub (s pat : String) : Bool := containsChars s.toList pat.toList

/-- Python `any(term in s for term in terms)`. -/
def anyTermIn (s : String) (terms : List String) : Bool :=
  terms.any (fun t => strContainsSub s t)

/-- `BackoffConfig.is_retryable_error` (backoff_config.py lines 177-207),
operating on `str(e)` of the exception. -/
def is_retryable_error (e : String) : Bool :=
  let error_str := lowerStr e
  if anyTermIn error_str ["429", "rate limit", "quota", "resource exhausted"] then
    true
  else if anyTermIn error_str ["500", "502", "503", "504"] then
    true
  else if anyTermIn error_str
      ["timeout", "connection", "network", "server error", "unavailable", "overloaded"] then
    true
  else
    false

/-- Observable outcome of one run of the `wrapper` retry loop inside
`BackoffConfig.exponential_backoff` (backoff_config.py lines 128-162):
the value returned or the exception re-raised, how many attempts invoked
the wrapped function, and how many failures were recorded into the
circuit breaker. -/
structure RetryOutcome (R : Type) where
  result : Except String R
  attemptsMade : Nat
  cbFailuresRecorded : Nat

/-- The `for attempt in range(max_tries)` loop of `exponential_backoff`'s
`wrapper` (backoff_config.py lines 133-160), with `max_time = None`.
`func attempt` is the outcome of the wrapped operation on that attempt
(`.error e` models an exception whose `str` is `e`). Every exception is
caught, recorded into the circuit breaker, and retried after a backoff
sleep unless the attempt index equals `max_tries - 1`, in which case it is
re-raised; the fuel argument equals the remaining attempts and the
fuel-exhausted case is unreachable for `maxTries ≥ 1`. -/
def retryGo {R : Type} (func : Nat → Except String R) (maxTries : Nat) :
    Nat → Nat → RetryOutcome R
  | _, 0 => { result := Except.error "", attemptsMade := 0, cbFailuresRecorded := 0 }
  | attempt, fuel + 1 =>
    match func attempt with
    | Except.ok r => { result := Except.ok r, attemptsMade := 1, cbFailuresRecorded := 0 }
    | Except.error e =>
      if attempt = maxTries - 1 then
        { result := Except.error e, attemptsMade := 1, cbFailuresRecorded := 1 }
      else
        let rest := retryGo func maxTries (attempt + 1) fuel
        { result := rest.result, attemptsMade := rest.attemptsMade + 1,
          cbFailuresRecorded := rest.cbFailuresRecorded + 1 }

/-- One call of a function wrapped by `BackoffConfig.exponential_backoff`
(with the circuit breaker currently admitting the call). -/
def exponential_backoff_run {R : Type} (func : Nat → Except String R) (maxTries : Nat) :
    RetryOutcome R :=
  retryGo func maxTries 0 maxTries

lemma retryGo_const_error {R : Type} (e : String) (n : Nat) :
    ∀ fuel attempt, 1 ≤ fuel → attempt + fuel = n →
      retryGo (fun _ => (Except.error e : Except String R)) n attempt fuel
        = { result := Except.error e, attemptsMade := fuel, cbFailuresRecorded := fuel } := by
  intro fuel
  induction fuel with
  | zero => intro attempt h1 _; omega
  | succ f ih =>
    intro attempt _ h2
    by_cases hf : f = 0
    · subst hf
      have ha : attempt = n - 1 := by omega
      simp [retryGo, ha]
    · have ha : ¬ attempt = n - 1 := by omega
      have hrec := ih (attempt + 1) (by omega) (by omega)
      simp [retryGo, ha, hrec]

/-- C2 counterexample: "malformed payload" is classified as non-retryable
by `is_retryable_error`, yet a wrapped operation that keeps raising it is
attempted 5 times (the default `max_tries`) with 5 failures recorded into
the circuit breaker — the claim predicts a single attempt and no recorded
circuit-breaker failure. -/
theorem C2_counterexample :
    is_retryable_error "malformed payload" = false
    ∧ (exponential_backoff_run
        (fun _ => (Except.error "malformed payload" : Except String Unit)) 5).attemptsMade = 5
    ∧ (exponential_backoff_run
        (fun _ => (Except.error "malformed payload" : Except String Unit)) 5).cbFailuresRecorded = 5
    ∧ ¬ ((exponential_backoff_run
          (fun _ => (Except.error "malformed payload" : Except String Unit)) 5).attemptsMade = 1
        ∧ (exponential_backoff_run
          (fun _ => (Except.error "malformed payload" : Except String Unit)) 5).cbFailuresRecorded = 0) := by
  decide

/-- C2 (amended): the `exponential_backoff` decorator never consults
`is_retryable_error`: every error — retryable or not — is retried with
backoff until `max_tries` attempts have been made, each failing attempt
records a failure into the circuit breaker, and the last error is re-raised
only after `max_tries` is exhausted. (Error classification via
`is_retryable_error` is used only by the unused `exponential_backoff_old`.) -/
theorem C2_retries_every_error {R : Type} (e : String) (n : Nat) (h : 1 ≤ n) :
    exponential_backoff_run (fun _ => (Except.error e : Except String R)) n
      = { result := Except.error e, attemptsMade := n, cbFailuresRecorded := n } := by
  exact retryGo_const_error e n n 0 h (by omega)

/-- Witness for `C2_retries_every_error` at a concrete error and the
default `max_tries = 5`. -/
theorem C2_witness :
    exponential_backoff_run
        (fun _ => (Except.error "malformed payload" : Except String Unit)) 5
      = { result := Except.error "malformed payload", attemptsMade := 5,
          cbFailuresRecorded := 5 } :=
  C2_retries_every_error "malformed payload" 5 (by decide)

/-! ## Requests and batch collection — src/mvp/exp/request_manager.py -/

inductive RequestPriority where
  | high
  | medium
  | low
deriving DecidableEq

/-- `RequestPriority.value` (the `Enum` string value). -/
def RequestPriority.value : RequestPriority → String
  | RequestPriority.high => "high"
  | RequestPriority.medium => "medium"
  | RequestPriority.low => "low"

/-- `Request` dataclass (request_manager.py lines 36-46), generic in the
payload type `T`; metadata values are modelled as strings. -/
structure Request (T : Type) where
  payload : T
  priority : RequestPriority
  timestamp : ℚ := 0
  request_id : String
  metadata : List (String × String) := []
deriving DecidableEq

/-- `BatchConfig` dataclass (request_manager.py lines 26-33). -/
structure BatchConfig where
  max_batch_size : Nat := 50
  max_wait_time : ℚ := 2
  min_batch_size : Nat := 5
  max_token_limit : Nat := 8000
deriving DecidableEq

/-- `RequestManager._estimate_tokens` (request_manager.py lines 141-144):
`len(str(request.payload)) // 4`. `strT` is Python's `str` on the payload
type. -/
def _estimate_tokens {T : Type} (strT : T → String) (r : Request T) : Nat :=
  (strT r.payload).length / 4

/-- The batch-filling loop of `RequestManager._collect_batch`
(request_manager.py lines 256-278), over a queue modelled as a list
(head = front of the `asyncio.Queue`). Arguments: accumulated batch,
remaining queue, running token total. Returns (batch, total_tokens,
queue after collection). The wall-clock `max_wait_time` condition and the
empty-queue sleep are elided: in this model the queue receives no new
items, so the time-based exit can only truncate the batch earlier and is
subsumed by stopping at the end of the list. A request that would push the
total over `max_token_limit` is put back with `queue.put`, which appends at
the TAIL of the queue, and the loop breaks. -/
def fillBatch {T : Type} (strT : T → String) (cfg : BatchConfig) :
    List (Request T) → List (Request T) → Nat → List (Request T) × Nat × List (Request T)
  | acc, [], total => (acc, total, [])
  | acc, r :: rest, total =>
    if acc.length < cfg.max_batch_size ∧ total < cfg.max_token_limit then
      if total + _estimate_tokens strT r ≤ cfg.max_token_limit then
        fillBatch strT cfg (acc ++ [r]) rest (total + _estimate_tokens strT r)
      else
        (acc, total, rest ++ [r])
    else
      (acc, total, r :: rest)

/-- `RequestManager._collect_batch` (request_manager.py lines 256-278): the
first request is pulled with a blocking `queue.get()` and added to the
batch unconditionally — its token estimate is added without any comparison
against `max_token_limit`. (The latency-based adjustment of
`max_batch_size` at lines 220-250 is reflected by letting `cfg` carry an
arbitrary `max_batch_size` value.) -/
def collect_batch {T : Type} (strT : T → String) (cfg : BatchConfig) :
    List (Request T) → List (Request T) × Nat × List (Request T)
  | [] => ([], 0, [])
  | first :: rest => fillBatch strT cfg [first] rest (_estimate_tokens strT first)

/-- Repeated batch collection, as performed by `_process_batch_loop`
(request_manager.py lines 188-214) draining one priority queue. -/
def collectBatches {T : Type} (strT : T → String) (cfg : BatchConfig) :
    Nat → List (Request T) → List (List (Request T))
  | 0, _ => []
  | _ + 1, [] => []
  | fuel + 1, r :: q =>
    let res := collect_batch strT cfg (r :: q)
    res.1 :: collectBatches strT cfg fuel res.2.2

lemma fillBatch_total_le {T : Type} (strT : T → String) (cfg : BatchConfig) :
    ∀ (q acc : List (Request T)) (t : Nat), t ≤ cfg.max_token_limit →
      (fillBatch strT cfg acc q t).2.1 ≤ cfg.max_token_limit := by
  intro q
  induction q with
  | nil => intro acc t h; simpa [fillBatch] using h
  | cons r rest ih =>
    intro acc t h
    by_cases h1 : acc.length < cfg.max_batch_size ∧ t < cfg.max_token_limit
    · by_cases h2 : t + _estimate_tokens strT r ≤ cfg.max_token_limit
      · simpa [fillBatch, h1, h2] using ih (acc ++ [r]) _ h2
      · simpa [fillBatch, h1, h2] using h
    · simpa [fillBatch, h1] using h

lemma fillBatch_sum {T : Type} (strT : T → String) (cfg : BatchConfig) :
    ∀ (q acc : List (Request T)) (t : Nat),
      t = (acc.map (_estimate_tokens strT)).sum →
      (fillBatch strT cfg acc q t).2.1
        = ((fillBatch strT cfg acc q t).1.map (_estimate_tokens strT)).sum := by
  intro q
  induction q with
  | nil => intro acc t h; simpa [fillBatch] using h
  | cons r rest ih =>
    intro acc t h
    by_cases h1 : acc.length < cfg.max_batch_size ∧ t < cfg.max_token_limit
    · by_cases h2 : t + _estimate_tokens strT r ≤ cfg.max_token_limit
      · have hrec := ih (acc ++ [r]) (t + _estimate_tokens strT r) (by simp [h])
        simpa [fillBatch, h1, h2] using hrec
      · simpa [fillBatch, h1, h2] using h
    · simpa [fillBatch, h1] using h

lemma fillBatch_perm {T : Type} (strT : T → String) (cfg : BatchConfig) :
    ∀ (q acc : List (Request T)) (t : Nat),
      List.Perm ((fillBatch strT cfg acc q t).1 ++ (fillBatch strT cfg acc q t).2.2)
        (acc ++ q) := by
  intro q
  induction q with
  | nil => intro acc t; simp [fillBatch]
  | cons r rest ih =>
    intro acc t
    by_cases h1 : acc.length < cfg.max_batch_size ∧ t < cfg.max_token_limit
    · by_cases h2 : t + _estimate_tokens strT r ≤ cfg.max_token_limit
      · have hrec := ih (acc ++ [r]) (t + _estimate_tokens strT r)
        simpa [fillBatch, h1, h2] using hrec
      · simpa [fillBatch, h1, h2] using
          List.Perm.append_left acc (List.perm_append_singleton r rest)
    · simp [fillBatch, h1]

lemma fillBatch_take {T : Type} (strT : T → String) (cfg : BatchConfig) :
    ∀ (q acc : List (Request T)) (t : Nat),
      ∃ k, (fillBatch strT cfg acc q t).1 = acc ++ q.take k := by
  intro q
  induction q with
  | nil => intro acc t; exact ⟨0, by simp [fillBatch]⟩
  | cons r rest ih =>
    intro acc t
    by_cases h1 : acc.length < cfg.max_batch_size ∧ t < cfg.max_token_limit
    · by_cases h2 : t + _estimate_tokens strT r ≤ cfg.max_token_limit
      · obtain ⟨k, hk⟩ := ih (acc ++ [r]) (t + _estimate_tokens strT r)
        refine ⟨k + 1, ?_⟩
        simpa [fillBatch, h1, h2] using hk
      · exact ⟨0, by simp [fillBatch, h1, h2]⟩
    · exact ⟨0, by simp [fillBatch, h1]⟩

/-- A small batch configuration: token limit 10, other fields default. -/
def cfgSmall : BatchConfig := { max_token_limit := 10 }

/-- A request whose payload string has length 44, so its token estimate is
11 — above `cfgSmall`'s limit of 10 on its own. -/
def reqBig : Request String :=
  { payload := "0123456789012345678901234567890123456789abcd",
    priority := RequestPriority.high, request_id := "req-big" }

/-- A request with payload length 8, token estimate 2. -/
def reqSmallA : Request String :=
  { payload := "aaaaaaaa", priority := RequestPriority.high, request_id := "req-a" }

/-- A second small request (estimate 2), enqueued after `reqBig`. -/
def reqSmallC : Request String :=
  { payload := "cccccccc", priority := RequestPriority.high, request_id := "req-c" }

/-- C3 counterexample: a first request whose own estimate (11) exceeds
`max_token_limit` (10) is still added to the batch unconditionally, so the
batch's aggregate estimated token count exceeds the limit. -/
theorem C3_counterexample :
    (collect_batch id cfgSmall [reqBig]).1 = [reqBig]
    ∧ (collect_batch id cfgSmall [reqBig]).2.1 = 11
    ∧ cfgSmall.max_token_limit = 10 := by
  decide

/-- C3 (amended): provided the first request pulled estimates within
`max_token_limit`, every batch assembled by `_collect_batch` has aggregate
estimated token count (the sum of `_estimate_tokens` over its requests,
which equals the running `total_tokens`) at most `max_token_limit`; the
first request is added without any limit check, so a single oversized first
request is the one way the bound fails. A request whose tokens would push
the total over the limit is returned to the queue for a later batch —
nothing is dropped or truncated (batch and remaining queue together are a
permutation of the input queue). -/
theorem C3_token_budget {T : Type} (strT : T → String) (cfg : BatchConfig)
    (q : List (Request T))
    (hfirst : ∀ r ∈ q.take 1, _estimate_tokens strT r ≤ cfg.max_token_limit) :
    (collect_batch strT cfg q).2.1 ≤ cfg.max_token_limit
    ∧ (collect_batch strT cfg q).2.1
        = ((collect_batch strT cfg q).1.map (_estimate_tokens strT)).sum
    ∧ List.Perm ((collect_batch strT cfg q).1 ++ (collect_batch strT cfg q).2.2) q := by
  cases q with
  | nil => simp [collect_batch]
  | cons first rest =>
    have hf : _estimate_tokens strT first ≤ cfg.max_token_limit := hfirst first (by simp)
    refine ⟨?_, ?_, ?_⟩
    · simpa [collect_batch] using fillBatch_total_le strT cfg rest [first] _ hf
    · simpa [collect_batch] using fillBatch_sum strT cfg rest [first] _ (by simp)
    · simpa [collect_batch] using fillBatch_perm strT cfg rest [first] _

/-- Witness for `C3_token_budget` on a concrete one-request queue that fits
the limit. -/
theorem C3_witness :
    (collect_batch id cfgSmall [reqSmallA]).2.1 ≤ cfgSmall.max_token_limit
    ∧ (collect_batch id cfgSmall [reqSmallA]).2.1
        = ((collect_batch id cfgSmall [reqSmallA]).1.map (_estimate_tokens id)).sum
    ∧ List.Perm ((collect_batch id cfgSmall [reqSmallA]).1
        ++ (collect_batch id cfgSmall [reqSmallA]).2.2) [reqSmallA] :=
  C3_token_budget id cfgSmall [reqSmallA] (by decide)

/-- C7 counterexample: on the queue [reqSmallA, reqBig, reqSmallC] (in
enqueue order) with token limit 10, `_collect_batch` takes reqSmallA, then
puts reqBig back with `queue.put`, which appends it BEHIND reqSmallC; the
successive batches are [reqSmallA], [reqSmallC], [reqBig], so reqBig —
enqueued before reqSmallC — is delivered in a later batch, violating
strict FIFO in exactly the put-back case the claim includes. -/
theorem C7_counterexample :
    (collect_batch id cfgSmall [reqSmallA, reqBig, reqSmallC]).2.2 = [reqSmallC, reqBig]
    ∧ collectBatches id cfgSmall 3 [reqSmallA, reqBig, reqSmallC]
      = [[reqSmallA], [reqSmallC], [reqBig]] := by
  decide

/-- C7 (amended): within a single priority queue each collected batch is an
initial segment of the queue at collection time — so delivery is strict
FIFO within a batch and across batches whenever no request is put back —
and nothing is lost (batch plus remaining queue is a permutation of the
queue); however, a request put back because it would exceed the token limit
is re-enqueued at the TAIL of the queue, so it can be delivered after
requests that were enqueued later than it. -/
theorem C7_fifo_prefix {T : Type} (strT : T → String) (cfg : BatchConfig)
    (q : List (Request T)) :
    (∃ k, (collect_batch strT cfg q).1 = q.take k)
    ∧ List.Perm ((collect_batch strT cfg q).1 ++ (collect_batch strT cfg q).2.2) q := by
  cases q with
  | nil => exact ⟨⟨0, by simp [collect_batch]⟩, by simp [collect_batch]⟩
  | cons first rest =>
    constructor
    · obtain ⟨k, hk⟩ := fillBatch_take strT cfg rest [first] (_estimate_tokens strT first)
      exact ⟨k + 1, by simpa [collect_batch] using hk⟩
    · simpa [collect_batch] using
        fillBatch_perm strT cfg rest [first] (_estimate_tokens strT first)

/-! ## RequestCache and submit_request — src/mvp/exp/request_manager.py -/

/-- Python `dict` lookup on an association list (`d.get(k)` / `k in d`). -/
def assocFind {α β : Type} [DecidableEq α] : List (α × β) → α → Option β
  | [], _ => none
  | (a, b) :: t, k => if a = k then some b else assocFind t k

/-- Python `d[k] = v`: replace the binding if present, else append. -/
def assocSet {α β : Type} [DecidableEq α] : List (α × β) → α → β → List (α × β)
  | [], k, v => [(k, v)]
  | (a, b) :: t, k, v => if a = k then (k, v) :: t else (a, b) :: assocSet t k v

/-- Python `del d[k]`. -/
def assocErase {α β : Type} [DecidableEq α] : List (α × β) → α → List (α × β)
  | [], _ => []
  | (a, b) :: t, k => if a = k then t else (a, b) :: assocErase t k

/-- Payloads of the cached requests: a string-to-string Python dict. -/
abbrev Payload := List (String × String)

/-- The structured `key_data` dictionary built by
`RequestCache._generate_cache_key` (request_manager.py lines 68-89).
The function's return value is the md5 of the sorted JSON dump of this
data — a deterministic function of it — so cache-key equality is modelled
as equality of the structured data; likewise the md5 `content_hash` of
`task_content` is modelled by the `task_content` string itself. -/
structure CacheKeyData where
  method : Option String
  payload : Payload
  priority : String
  source : String
  content_hash : Option String
deriving DecidableEq

/-- `RequestCache._generate_cache_key` (request_manager.py lines 68-89):
the key is built from the payload's `method` field, the payload itself,
the priority value, the metadata `source` field (default "unknown"), and —
for the `categorize_gtd_level` method — a fingerprint of
`payload["task_content"]` (default `""`). -/
def _generate_cache_key (req : Request Payload) : CacheKeyData :=
  let method := assocFind req.payload "method"
  let base : CacheKeyData :=
    { method := method
      payload := req.payload
      priority := req.priority.value
      source := (assocFind req.metadata "source").getD "unknown"
      content_hash := none }
  if method = some "categorize_gtd_level" then
    { base with content_hash := some ((assocFind req.payload "task_content").getD "") }
  else
    base

/-- `RequestCache` state (request_manager.py lines 59-64): the `cache` dict
maps keys to `(timestamp, response)` pairs; default TTL 300 s. -/
structure RequestCacheState where
  cache : List (CacheKeyData × (ℚ × String)) := []
  ttl : ℚ := 300

/-- A fresh `RequestCache()`. -/
def cache0 : RequestCacheState := {}

/-- `RequestCache.get` (request_manager.py lines 91-100): returns the
cached response only if its age is at most `ttl`; an expired entry is
deleted and the lookup misses. -/
def RequestCache.get (c : RequestCacheState) (req : Request Payload) (now : ℚ) :
    RequestCacheState × Option String :=
  let key := _generate_cache_key req
  match assocFind c.cache key with
  | some (timestamp, response) =>
    if now - timestamp ≤ c.ttl then (c, some response)
    else ({ c with cache := assocErase c.cache key }, none)
  | none => (c, none)

/-- `RequestCache.set` (request_manager.py lines 102-106). -/
def RequestCache.set (c : RequestCacheState) (req : Request Payload)
    (response : String) (now : ℚ) : RequestCacheState :=
  { c with cache := assocSet c.cache (_generate_cache_key req) (now, response) }

/-- Outcome of the front half of `RequestManager.submit_request`: either the
request is answered from `RequestCache`, or it is enqueued onto its priority
queue (and the batch processor will be invoked for it). -/
inductive SubmitOutcome where
  | cachedHit (response : String)
  | enqueued
deriving DecidableEq

/-- The cache-check-then-enqueue decision of `RequestManager.submit_request`
(request_manager.py lines 147-159). -/
def submit_check (c : RequestCacheState) (req : Request Payload) (now : ℚ) :
    RequestCacheState × SubmitOutcome :=
  match RequestCache.get c req now with
  | (c1, some r) => (c1, SubmitOutcome.cachedHit r)
  | (c1, none) => (c1, SubmitOutcome.enqueued)

/-- `RequestManager._wait_for_result` (request_manager.py lines 170-174):
after `asyncio.sleep(0.1)` it returns `None` — a fixed placeholder that
does not depend on the request, its id, or any batch result. -/
def _wait_for_result (_req : Request Payload) : Option String := none

/-- The value returned to the caller of `submit_request` (request_manager.py
lines 147-168): the cached response on a hit, else the value of
`_wait_for_result`. -/
def submit_request_result (c : RequestCacheState) (req : Request Payload) (now : ℚ) :
    Option String :=
  match RequestCache.get c req now with
  | (_, some cached) => some cached
  | (_, none) => _wait_for_result req

/-- How many of the submissions were enqueued, i.e. reached the batch
processor (`_process_batch_loop` invokes `batch_processor` on every request
that was enqueued and caches its result, request_manager.py lines 188-210). -/
def processorInvocations (outs : List SubmitOutcome) : Nat :=
  (outs.filter (fun o =>
    match o with
    | SubmitOutcome.enqueued => true
    | _ => false)).length

/-- The two-submission scenario of claim C9: `req1` is submitted at `t1`
against a fresh cache and misses; its batch is processed and the batch
processor's result `response` is cached at time `tset`; then `req2` is
submitted at `t2`. -/
def twoSubmitTrace (req1 req2 : Request Payload) (response : String)
    (t1 tset t2 : ℚ) : List SubmitOutcome :=
  let s1 := submit_check cache0 req1 t1
  let c2 := RequestCache.set s1.1 req1 response tset
  let s2 := submit_check c2 req2 t2
  [s1.2, s2.2]

lemma generate_cache_key_eq_of_fields (r1 r2 : Request Payload)
    (hp : r1.payload = r2.payload) (hpr : r1.priority = r2.priority)
    (hs : (assocFind r1.metadata "source").getD "unknown"
        = (assocFind r2.metadata "source").getD "unknown") :
    _generate_cache_key r1 = _generate_cache_key r2 := by
  simp [_generate_cache_key, hp, hpr, hs]

/-- C10: the cache key of a request depends only on the payload (including
its `method` field, from which the optional `content_hash` is also
derived), the priority value, and the metadata field `source` (with default
"unknown"): two requests agreeing on these get equal keys from
`_generate_cache_key`, whatever their `request_id`, `timestamp`, or other
metadata entries — so two such submissions share one cache entry and one
can be served the other's cached result. -/
theorem C10_cache_key_only_fields (r1 r2 : Request Payload)
    (hp : r1.payload = r2.payload) (hpr : r1.priority = r2.priority)
    (hs : (assocFind r1.metadata "source").getD "unknown"
        = (assocFind r2.metadata "source").getD "unknown") :
    _generate_cache_key r1 = _generate_cache_key r2 :=
  generate_cache_key_eq_of_fields r1 r2 hp hpr hs

/-- A request whose payload uses the `categorize_gtd_level` method. -/
def reqK1 : Request Payload :=
  { payload := [("method", "categorize_gtd_level"), ("task_content", "write spec")],
    priority := RequestPriority.medium, timestamp := 0, request_id := "id-1",
    metadata := [("source", "todoist"), ("trace", "x1")] }

/-- A second request with the same payload, priority, and metadata `source`
as `reqK1`, but different `request_id`, `timestamp`, and other metadata. -/
def reqK2 : Request Payload :=
  { payload := [("method", "categorize_gtd_level"), ("task_content", "write spec")],
    priority := RequestPriority.medium, timestamp := 7, request_id := "id-2",
    metadata := [("batch", "b9"), ("source", "todoist")] }

/-- Witness for `C10_cache_key_only_fields`: `reqK1` and `reqK2` differ in
`request_id`, `timestamp`, and extra metadata, yet share one cache key. -/
theorem C10_witness :
    _generate_cache_key reqK1 = _generate_cache_key reqK2
    ∧ reqK1.request_id ≠ reqK2.request_id :=
  ⟨C10_cache_key_only_fields reqK1 reqK2 rfl rfl (by decide), by decide⟩

/-- A request with the same payload and priority as `reqK1` but a different
metadata `source` ("webhook" instead of "todoist"). -/
def reqDiffSrc : Request Payload :=
  { payload := [("method", "categorize_gtd_level"), ("task_content", "write spec")],
    priority := RequestPriority.medium, timestamp := 3, request_id := "id-3",
    metadata := [("source", "webhook")] }

/-- C9 counterexample: `reqK1` and `reqDiffSrc` have identical payload and
identical priority, and the second submission arrives at time 100, well
within the TTL (300 s) of the result cached at time 1 — yet their metadata
`source` values differ ("todoist" vs "webhook"), so `_generate_cache_key`
produces different keys, the second submission misses the cache, and the
batch processor is invoked twice where the claim says exactly once. -/
theorem C9_counterexample :
    reqK1.payload = reqDiffSrc.payload
    ∧ reqK1.priority = reqDiffSrc.priority
    ∧ (assocFind reqK1.metadata "source").getD "unknown"
        ≠ (assocFind reqDiffSrc.metadata "source").getD "unknown"
    ∧ (100 : ℚ) - 1 ≤ 300
    ∧ processorInvocations (twoSubmitTrace reqK1 reqDiffSrc "res" 0 1 100) = 2 :=
  ⟨rfl, rfl, by decide, by norm_num, by decide⟩

/-- C9 (amended): in the two-submission scenario — identical payload,
identical priority AND identical effective metadata `source`
(`metadata.get("source", "unknown")`, which also enters the cache key), the
first submission processed and its result cached at `tset` — the batch
processor is invoked exactly once when the second submission arrives within
the cache TTL (300 s) of the cached result, and once more (twice in total)
when it arrives after the TTL has expired. -/
theorem C9_dedup_idempotence (req1 req2 : Request Payload) (response : String)
    (t1 tset t2 : ℚ)
    (hp : req1.payload = req2.payload) (hpr : req1.priority = req2.priority)
    (hs : (assocFind req1.metadata "source").getD "unknown"
        = (assocFind req2.metadata "source").getD "unknown") :
    (t2 - tset ≤ (300 : ℚ) →
      processorInvocations (twoSubmitTrace req1 req2 response t1 tset t2) = 1)
    ∧ ((300 : ℚ) < t2 - tset →
      processorInvocations (twoSubmitTrace req1 req2 response t1 tset t2) = 2) := by
  have hkey : _generate_cache_key req2 = _generate_cache_key req1 :=
    (generate_cache_key_eq_of_fields req1 req2 hp hpr hs).symm
  constructor
  · intro hle
    simp [twoSubmitTrace, submit_check, RequestCache.get, RequestCache.set,
          cache0, assocFind, assocSet, hkey, processorInvocations, hle]
  · intro hgt
    simp [twoSubmitTrace, submit_check, RequestCache.get, RequestCache.set,
          cache0, assocFind, assocSet, hkey, processorInvocations, not_le.mpr hgt]

/-- Witness for `C9_dedup_idempotence`: with the result cached at time 1,
a resubmission at time 100 (within TTL) leaves one processor invocation; a
resubmission at time 500 (TTL expired) makes it two. -/
theorem C9_witness :
    processorInvocations (twoSubmitTrace reqK1 reqK2 "res" 0 1 100) = 1
    ∧ processorInvocations (twoSubmitTrace reqK1 reqK2 "res" 0 1 500) = 2 :=
  ⟨(C9_dedup_idempotence reqK1 reqK2 "res" 0 1 100 rfl rfl (by decide)).1 (by norm_num),
   (C9_dedup_idempotence reqK1 reqK2 "res" 0 1 500 rfl rfl (by decide)).2 (by norm_num)⟩

/-- C1 (code bug, evaluated at the failing input): for every submission
whose cache lookup misses, `submit_request` returns the value of
`_wait_for_result`, which is the fixed placeholder `None` — not a result
correlated to the request by id (no correlation mechanism exists; the
batch processor's results are only written into the cache, never routed
back to the suspended caller). -/
theorem C1_miss_returns_placeholder (c : RequestCacheState) (req : Request Payload)
    (now : ℚ) (hmiss : (RequestCache.get c req now).2 = none) :
    submit_request_result c req now = none := by
  cases hg : RequestCache.get c req now with
  | mk c1 o =>
    rw [hg] at hmiss
    simp only at hmiss
    subst hmiss
    simp [submit_request_result, hg, _wait_for_result]

/-- Witness for `C1_miss_returns_placeholder`: a fresh cache misses on
`reqK1` and the submission returns `none` whatever the batch produced. -/
theorem C1_witness :
    (RequestCache.get cache0 reqK1 0).2 = none
    ∧ submit_request_result cache0 reqK1 0 = none :=
  ⟨by decide, C1_miss_returns_placeholder cache0 reqK1 0 (by decide)⟩

/-! ## RateLimiter — src/mvp/exp/rate_limiter.py -/

/-- `QuotaConfig` dataclass (rate_limiter.py lines 16-45) with the defaults
installed by `__post_init__`: priority shares high 0.5, medium 0.3,
low 0.2. (With these values the float products `30*0.5`, `30*0.3`, `30*0.2`
round to exactly 15.0, 9.0, 6.0, so the rational model agrees with the
Python `int(...)` results.) -/
structure QuotaConfig where
  requests_per_minute : Nat := 30
  min_delay_between_requests : ℚ := 2
  cooldown_duration : ℚ := 30
  max_concurrent_requests : Nat := 5
  priority_levels : List (String × ℚ) := [("high", 1/2), ("medium", 3/10), ("low", 1/5)]
deriving DecidableEq

/-- Mutable `RateLimiter` state relevant to `wait_for_capacity`
(rate_limiter.py lines 51-58). -/
structure RLState where
  request_timestamps : List ℚ := []
  last_request_time : ℚ := 0
  cooldown_until : ℚ := 0
deriving DecidableEq

/-- Python slice `l[-m:]`: for `m = 0` this is `l[0:] = l`, otherwise the
last `m` elements (all of `l` when it is shorter than `m`). -/
def pySliceLast {α : Type} (m : Nat) (l : List α) : List α :=
  if m = 0 then l else l.drop (l.length - m)

/-- Python index `l[-m]`: `l[0]` for `m = 0`, else the `m`-th element from
the end; `none` models the `IndexError` when out of range. -/
def pyGetNeg {α : Type} (l : List α) (m : Nat) : Option α :=
  if m = 0 then l[0]?
  else if m ≤ l.length then l[l.length - m]?
  else none

/-- The timestamp-cleaning step `[ts for ts in self.request_timestamps if
now - ts < 60]` (rate_limiter.py lines 129-131). -/
def cleanTs (now : ℚ) (l : List ℚ) : List ℚ :=
  l.filter (fun t => decide (now - t < 60))

/-- `int(self.config.requests_per_minute * quota_share)`
(rate_limiter.py lines 134-137); Python `int()` truncation equals the floor
for the nonnegative values that arise. -/
def maxReqOf (cfg : QuotaConfig) (share : ℚ) : Nat :=
  (⌊(cfg.requests_per_minute : ℚ) * share⌋).toNat

/-- `priority_requests = len([ts for ts in
self.request_timestamps[-max_requests:] if now - ts < 60])`
(rate_limiter.py lines 138-144). -/
def prioCount (m : Nat) (ts : List ℚ) (now : ℚ) : Nat :=
  ((pySliceLast m ts).filter (fun t => decide (now - t < 60))).length

/-- Result of one iteration of the `while True` loop in
`RateLimiter.wait_for_capacity`: either the request is admitted (with the
function about to `return True`), or the caller sleeps for a computed wait
and re-checks. -/
inductive StepResult where
  | admitted (st : RLState)
  | sleepRetry (wait : ℚ) (st : RLState)
deriving DecidableEq

/-- One iteration of `RateLimiter.wait_for_capacity` (rate_limiter.py lines
106-173), including the `ValueError` raised at entry for a priority level
absent from `priority_levels` (lines 108-109; the entry check is re-stated
here on every iteration, which is equivalent since the config never
changes) and the potential `IndexError` of
`self.request_timestamps[-max_requests]`. The bounded-concurrency
semaphore only sequences callers and is not part of the decision. -/
def wait_iteration (cfg : QuotaConfig) (priority : String) (st : RLState) (now : ℚ) :
    Except String StepResult :=
  match assocFind cfg.priority_levels priority with
  | none => Except.error ("Invalid priority level: " ++ priority)
  | some quota_share =>
    if now < st.cooldown_until then
      Except.ok (StepResult.sleepRetry (st.cooldown_until - now) st)
    else
      let ts := cleanTs now st.request_timestamps
      let st1 : RLState := { st with request_timestamps := ts }
      let max_requests := maxReqOf cfg quota_share
      if max_requests ≤ prioCount max_requests ts now then
        match pyGetNeg ts max_requests with
        | none => Except.error "IndexError: list index out of range"
        | some t0 => Except.ok (StepResult.sleepRetry (60 - (now - t0)) st1)
      else if now - st.last_request_time < cfg.min_delay_between_requests then
        Except.ok (StepResult.sleepRetry cfg.min_delay_between_requests st1)
      else
        Except.ok (StepResult.admitted
          { st1 with request_timestamps := ts ++ [now], last_request_time := now })

/-- A sequence of `wait_for_capacity` loop iterations by successive callers:
each element of `attempts` is `(now, priority)` for one iteration at that
instant. Returns the final state and the list of admitted `(time, priority)`
events, in order. An iteration that sleeps or raises leaves no event; the
admitted iteration records its timestamp (lines 165-168). -/
def rl_run (cfg : QuotaConfig) : RLState → List (ℚ × String) → RLState × List (ℚ × String)
  | st, [] => (st, [])
  | st, (now, p) :: rest =>
    match wait_iteration cfg p st now with
    | Except.error _ => rl_run cfg st rest
    | Except.ok (StepResult.sleepRetry _ st1) => rl_run cfg st1 rest
    | Except.ok (StepResult.admitted st1) =>
      let res := rl_run cfg st1 rest
      (res.1, (now, p) :: res.2)

/-- The default `QuotaConfig()`: `requests_per_minute = 30`, shares
high 0.5 / medium 0.3 / low 0.2. -/
def cfgDefaultQuota : QuotaConfig := {}

/-- A fresh `RateLimiter` state. -/
def rlInit : RLState := {}

/-- C6 counterexample: `wait_for_capacity` raises
`ValueError(f"Invalid priority level: {priority}")` for a priority string
not present in `priority_levels`, so it does not hold for every input
priority string that the call never raises. -/
theorem C6_counterexample :
    wait_iteration cfgDefaultQuota "urgent" rlInit 0
      = Except.error "Invalid priority level: urgent" := by
  rfl

lemma wait_iteration_cooldown (cfg : QuotaConfig) (priority : String) (st : RLState)
    (now share : ℚ)
    (hl : assocFind cfg.priority_levels priority = some share)
    (hcd : now < st.cooldown_until) :
    wait_iteration cfg priority st now
      = Except.ok (StepResult.sleepRetry (st.cooldown_until - now) st) := by
  unfold wait_iteration
  rw [hl]
  simp [hcd]

lemma wait_iteration_quota_sleep (cfg : QuotaConfig) (priority : String) (st : RLState)
    (now share t0 : ℚ)
    (hl : assocFind cfg.priority_levels priority = some share)
    (hcd : ¬ now < st.cooldown_until)
    (hq : maxReqOf cfg share
        ≤ prioCount (maxReqOf cfg share) (cleanTs now st.request_timestamps) now)
    (hg : pyGetNeg (cleanTs now st.request_timestamps) (maxReqOf cfg share) = some t0) :
    wait_iteration cfg priority st now
      = Except.ok (StepResult.sleepRetry (60 - (now - t0))
          { st with request_timestamps := cleanTs now st.request_timestamps }) := by
  unfold wait_iteration
  rw [hl]
  simp [hcd, hq, hg]

lemma wait_iteration_delay (cfg : QuotaConfig) (priority : String) (st : RLState)
    (now share : ℚ)
    (hl : assocFind cfg.priority_levels priority = some share)
    (hcd : ¬ now < st.cooldown_until)
    (hq : ¬ maxReqOf cfg share
        ≤ prioCount (maxReqOf cfg share) (cleanTs now st.request_timestamps) now)
    (hd : now - st.last_request_time < cfg.min_delay_between_requests) :
    wait_iteration cfg priority st now
      = Except.ok (StepResult.sleepRetry cfg.min_delay_between_requests
          { st with request_timestamps := cleanTs now st.request_timestamps }) := by
  unfold wait_iteration
  rw [hl]
  simp [hcd, hq, hd]

lemma wait_iteration_admits (cfg : QuotaConfig) (priority : String) (st : RLState)
    (now share : ℚ)
    (hl : assocFind cfg.priority_levels priority = some share)
    (hcd : ¬ now < st.cooldown_until)
    (hq : ¬ maxReqOf cfg share
        ≤ prioCount (maxReqOf cfg share) (cleanTs now st.request_timestamps) now)
    (hd : ¬ now - st.last_request_time < cfg.min_delay_between_requests) :
    wait_iteration cfg priority st now
      = Except.ok (StepResult.admitted
          { st with request_timestamps := cleanTs now st.request_timestamps ++ [now],
                    last_request_time := now }) := by
  unfold wait_iteration
  rw [hl]
  simp [hcd, hq, hd]

lemma pySliceLast_length {α : Type} (m : Nat) (l : List α) :
    (pySliceLast m l).length = if m = 0 then l.length else l.length - (l.length - m) := by
  unfold pySliceLast
  split <;> simp

lemma prioCount_cleaned (now : ℚ) (l : List ℚ) (m : Nat) :
    prioCount m (cleanTs now l) now = (pySliceLast m (cleanTs now l)).length := by
  unfold prioCount
  congr 1
  apply List.filter_eq_self.mpr
  intro x hx
  have hx2 : x ∈ cleanTs now l := by
    unfold pySliceLast at hx
    by_cases hm : m = 0
    · simpa [hm] using hx
    · simp only [hm, if_false] at hx
      exact List.drop_subset _ _ hx
  unfold cleanTs at hx2
  exact (List.mem_filter.mp hx2).2

lemma cleaned_lt_of_quota_pass (now : ℚ) (l : List ℚ) (m : Nat)
    (h : ¬ m ≤ prioCount m (cleanTs now l) now) :
    (cleanTs now l).length < m := by
  rw [prioCount_cleaned, pySliceLast_length] at h
  by_cases hm : m = 0
  · simp [hm] at h
  · simp [hm] at h
    omega

lemma pyGetNeg_isSome {α : Type} (l : List α) (m : Nat) (h1 : 1 ≤ m)
    (h2 : m ≤ l.length) : ∃ x, pyGetNeg l m = some x := by
  have hm : ¬ m = 0 := by omega
  have hlt : l.length - m < l.length := by omega
  refine ⟨l.get ⟨l.length - m, hlt⟩, ?_⟩
  unfold pyGetNeg
  simp [hm, h2]

/-- C6 (amended): for every priority string present in `priority_levels`
whose quota floor `int(requests_per_minute * share)` is at least 1 — true
of all three default priorities (15, 9, 6) — an iteration of
`wait_for_capacity` never raises: it either admits the request (the loop
then returns true) or computes a wait, suspends, and re-checks. The claim
fails only for priority strings absent from `priority_levels`, where the
entry check raises `ValueError` (and a latent `IndexError` would be
reachable only with a zero quota floor). -/
theorem C6_no_raise_for_valid_priority (cfg : QuotaConfig) (priority : String)
    (share : ℚ) (st : RLState) (now : ℚ)
    (hl : assocFind cfg.priority_levels priority = some share)
    (hmax : 1 ≤ maxReqOf cfg share) :
    ∃ res, wait_iteration cfg priority st now = Except.ok res := by
  by_cases hcd : now < st.cooldown_until
  · exact ⟨_, wait_iteration_cooldown cfg priority st now share hl hcd⟩
  · by_cases hq : maxReqOf cfg share
        ≤ prioCount (maxReqOf cfg share) (cleanTs now st.request_timestamps) now
    · have hlen : maxReqOf cfg share ≤ (cleanTs now st.request_timestamps).length := by
        have hpc := prioCount_cleaned now st.request_timestamps (maxReqOf cfg share)
        rw [hpc, pySliceLast_length] at hq
        by_cases hm0 : maxReqOf cfg share = 0
        · omega
        · simp [hm0] at hq
          omega
      obtain ⟨t0, ht0⟩ := pyGetNeg_isSome (cleanTs now st.request_timestamps)
        (maxReqOf cfg share) hmax hlen
      exact ⟨_, wait_iteration_quota_sleep cfg priority st now share t0 hl hcd hq ht0⟩
    · by_cases hd : now - st.last_request_time < cfg.min_delay_between_requests
      · exact ⟨_, wait_iteration_delay cfg priority st now share hl hcd hq hd⟩
      · exact ⟨_, wait_iteration_admits cfg priority st now share hl hcd hq hd⟩

/-- Witness for `C6_no_raise_for_valid_priority` at the default config,
priority "high" (share 0.5, quota floor 15), and a fresh limiter. -/
theorem C6_witness :
    ∃ res, wait_iteration cfgDefaultQuota "high" rlInit 0 = Except.ok res :=
  C6_no_raise_for_valid_priority cfgDefaultQuota "high" (1/2) rlInit 0 rfl
    (by norm_num [maxReqOf, cfgDefaultQuota])

lemma wait_iteration_quota_error (cfg : QuotaConfig) (priority : String) (st : RLState)
    (now share : ℚ)
    (hl : assocFind cfg.priority_levels priority = some share)
    (hcd : ¬ now < st.cooldown_until)
    (hq : maxReqOf cfg share
        ≤ prioCount (maxReqOf cfg share) (cleanTs now st.request_timestamps) now)
    (hg : pyGetNeg (cleanTs now st.request_timestamps) (maxReqOf cfg share) = none) :
    wait_iteration cfg priority st now
      = Except.error "IndexError: list index out of range" := by
  unfold wait_iteration
  rw [hl]
  simp [hcd, hq, hg]

lemma wait_iteration_sleep_ts (cfg : QuotaConfig) (p : String) (st : RLState)
    (now w : ℚ) (st1 : RLState)
    (hw : wait_iteration cfg p st now = Except.ok (StepResult.sleepRetry w st1)) :
    st1.request_timestamps = st.request_timestamps
    ∨ st1.request_timestamps = cleanTs now st.request_timestamps := by
  cases hl : assocFind cfg.priority_levels p with
  | none =>
    unfold wait_iteration at hw
    rw [hl] at hw
    simp at hw
  | some share =>
    by_cases hcd : now < st.cooldown_until
    · rw [wait_iteration_cooldown cfg p st now share hl hcd] at hw
      simp at hw
      exact Or.inl (congrArg RLState.request_timestamps hw.2.symm)
    · by_cases hq : maxReqOf cfg share
          ≤ prioCount (maxReqOf cfg share) (cleanTs now st.request_timestamps) now
      · cases hg : pyGetNeg (cleanTs now st.request_timestamps) (maxReqOf cfg share) with
        | none =>
          rw [wait_iteration_quota_error cfg p st now share hl hcd hq hg] at hw
          simp at hw
        | some t0 =>
          rw [wait_iteration_quota_sleep cfg p st now share t0 hl hcd hq hg] at hw
          simp at hw
          exact Or.inr (congrArg RLState.request_timestamps hw.2.symm)
      · by_cases hd : now - st.last_request_time < cfg.min_delay_between_requests
        · rw [wait_iteration_delay cfg p st now share hl hcd hq hd] at hw
          simp at hw
          exact Or.inr (congrArg RLState.request_timestamps hw.2.symm)
        · rw [wait_iteration_admits cfg p st now share hl hcd hq hd] at hw
          simp at hw

lemma wait_iteration_admits_inv (cfg : QuotaConfig) (p : String) (st : RLState)
    (now : ℚ) (st1 : RLState)
    (hw : wait_iteration cfg p st now = Except.ok (StepResult.admitted st1)) :
    ∃ share, assocFind cfg.priority_levels p = some share ∧
      st1.request_timestamps = cleanTs now st.request_timestamps ++ [now] ∧
      (cleanTs now st.request_timestamps).length < maxReqOf cfg share := by
  cases hl : assocFind cfg.priority_levels p with
  | none =>
    unfold wait_iteration at hw
    rw [hl] at hw
    simp at hw
  | some share =>
    by_cases hcd : now < st.cooldown_until
    · rw [wait_iteration_cooldown cfg p st now share hl hcd] at hw
      simp at hw
    · by_cases hq : maxReqOf cfg share
          ≤ prioCount (maxReqOf cfg share) (cleanTs now st.request_timestamps) now
      · cases hg : pyGetNeg (cleanTs now st.request_timestamps) (maxReqOf cfg share) with
        | none =>
          rw [wait_iteration_quota_error cfg p st now share hl hcd hq hg] at hw
          simp at hw
        | some t0 =>
          rw [wait_iteration_quota_sleep cfg p st now share t0 hl hcd hq hg] at hw
          simp at hw
      · by_cases hd : now - st.last_request_time < cfg.min_delay_between_requests
        · rw [wait_iteration_delay cfg p st now share hl hcd hq hd] at hw
          simp at hw
        · rw [wait_iteration_admits cfg p st now share hl hcd hq hd] at hw
          simp at hw
          refine ⟨share, rfl, ?_, cleaned_lt_of_quota_pass now st.request_timestamps _ hq⟩
          exact congrArg RLState.request_timestamps hw.symm

lemma cleanTs_countP_recent (l : List ℚ) (now cut : ℚ) (h : now - 60 ≤ cut) :
    (cleanTs now l).countP (fun x => decide (cut < x))
      = l.countP (fun x => decide (cut < x)) := by
  rw [List.countP_eq_length_filter, List.countP_eq_length_filter]
  congr 1
  unfold cleanTs
  rw [List.filter_filter]
  apply List.filter_congr
  intro x _
  by_cases hx : cut < x
  · have hx2 : now - x < 60 := by linarith
    simp [hx, hx2]
  · simp [hx]

lemma countP_recent_eq_cleanTs_length (l : List ℚ) (now : ℚ) :
    l.countP (fun x => decide (now - 60 < x)) = (cleanTs now l).length := by
  rw [List.countP_eq_length_filter]
  congr 1
  apply List.filter_congr
  intro x _
  by_cases hx : now - 60 < x
  · have hx2 : now - x < 60 := by linarith
    simp [hx, hx2]
  · have hx2 : ¬ now - x < 60 := by intro hc; exact hx (by linarith)
    simp [hx, hx2]

lemma rl_run_sublist (cfg : QuotaConfig) :
    ∀ (attempts : List (ℚ × String)) (st : RLState),
      (rl_run cfg st attempts).2.Sublist attempts := by
  intro attempts
  induction attempts with
  | nil => intro st; simp [rl_run]
  | cons a rest ih =>
    intro st
    obtain ⟨now, p⟩ := a
    cases hw : wait_iteration cfg p st now with
    | error err => simpa [rl_run, hw] using (ih st).cons (now, p)
    | ok r =>
      cases r with
      | sleepRetry w st1 => simpa [rl_run, hw] using (ih st1).cons (now, p)
      | admitted st1 => simpa [rl_run, hw] using (ih st1).cons₂ (now, p)

lemma rl_run_window_inv (cfg : QuotaConfig) :
    ∀ (attempts : List (ℚ × String)) (st : RLState),
      List.Pairwise (fun x y : ℚ => x ≤ y) (attempts.map Prod.fst) →
      ∀ (pre : List (ℚ × String)) (e : ℚ × String) (post : List (ℚ × String)),
        (rl_run cfg st attempts).2 = pre ++ e :: post →
        ∃ share, assocFind cfg.priority_levels e.2 = some share ∧
          (pre.map Prod.fst ++ st.request_timestamps).countP
              (fun x => decide (e.1 - 60 < x))
            < maxReqOf cfg share := by
  intro attempts
  induction attempts with
  | nil =>
    intro st _ pre e post h
    simp [rl_run] at h
  | cons a rest ih =>
    intro st hmono pre e post h
    obtain ⟨now, p⟩ := a
    rw [List.map_cons] at hmono
    have hmono2 : List.Pairwise (fun x y : ℚ => x ≤ y) (rest.map Prod.fst) :=
      hmono.of_cons
    have hlater : ∀ q ∈ rest, now ≤ q.1 := by
      intro q hq
      exact (List.pairwise_cons.mp hmono).1 q.1 (List.mem_map_of_mem Prod.fst hq)
    cases hw : wait_iteration cfg p st now with
    | error err =>
      have h2 : (rl_run cfg st rest).2 = pre ++ e :: post := by
        simpa [rl_run, hw] using h
      exact ih st hmono2 pre e post h2
    | ok r =>
      cases r with
      | sleepRetry w st1 =>
        have h2 : (rl_run cfg st1 rest).2 = pre ++ e :: post := by
          simpa [rl_run, hw] using h
        obtain ⟨share, hsh, hbound⟩ := ih st1 hmono2 pre e post h2
        refine ⟨share, hsh, ?_⟩
        have he_mem : e ∈ rest := by
          have hsub := rl_run_sublist cfg rest st1
          rw [h2] at hsub
          exact hsub.subset (by simp)
        have hnow_le : now ≤ e.1 := hlater e he_mem
        rcases wait_iteration_sleep_ts cfg p st now w st1 hw with hts | hts
        · rwa [hts] at hbound
        · rw [hts] at hbound
          rw [List.countP_append] at hbound ⊢
          rwa [cleanTs_countP_recent st.request_timestamps now (e.1 - 60) (by linarith)]
            at hbound
      | admitted st1 =>
        obtain ⟨share_p, hlp, hst1, hlen⟩ := wait_iteration_admits_inv cfg p st now st1 hw
        have h2 : (now, p) :: (rl_run cfg st1 rest).2 = pre ++ e :: post := by
          simpa [rl_run, hw] using h
        cases pre with
        | nil =>
          simp only [List.nil_append] at h2
          injection h2 with h2a h2b
          subst h2a
          refine ⟨share_p, by simpa using hlp, ?_⟩
          simp only [List.map_nil, List.nil_append]
          show st.request_timestamps.countP (fun x => decide (now - 60 < x))
            < maxReqOf cfg share_p
          rw [countP_recent_eq_cleanTs_length]
          exact hlen
        | cons q pre2 =>
          rw [List.cons_append] at h2
          injection h2 with h2a h2b
          obtain ⟨share, hsh, hbound⟩ := ih st1 hmono2 pre2 e post h2b
          refine ⟨share, hsh, ?_⟩
          have he_mem : e ∈ rest := by
            have hsub := rl_run_sublist cfg rest st1
            rw [h2b] at hsub
            exact hsub.subset (by simp)
          have hnow_le : now ≤ e.1 := hlater e he_mem
          rw [hst1, List.countP_append, List.countP_append,
              cleanTs_countP_recent st.request_timestamps now (e.1 - 60) (by linarith)]
            at hbound
          subst h2a
          simp only [List.map_cons, List.cons_append, List.countP_cons,
            List.countP_append, List.countP_nil] at hbound ⊢
          omega

lemma filter_nth_split {α : Type} (P : α → Bool) :
    ∀ (L : List α) (k : Nat), k + 1 ≤ (L.filter P).length →
      ∃ pre x post, L = pre ++ x :: post ∧ P x = true ∧ (pre.filter P).length = k := by
  intro L
  induction L with
  | nil => intro k h; simp at h
  | cons y t ih =>
    intro k h
    by_cases hy : P y = true
    · cases k with
      | zero => exact ⟨[], y, t, rfl, hy, rfl⟩
      | succ k2 =>
        rw [List.filter_cons_of_pos hy] at h
        have h2 : k2 + 1 ≤ (t.filter P).length := by
          rw [List.length_cons] at h
          omega
        obtain ⟨pre, x, post, rfl, hPx, hlen⟩ := ih k2 h2
        refine ⟨y :: pre, x, post, rfl, hPx, ?_⟩
        rw [List.filter_cons_of_pos hy, List.length_cons, hlen]
    · have hy2 : ¬ P y = true := hy
      rw [List.filter_cons_of_neg (by simpa using hy2)] at h
      obtain ⟨pre, x, post, rfl, hPx, hlen⟩ := ih k h
      refine ⟨y :: pre, x, post, rfl, hPx, ?_⟩
      rw [List.filter_cons_of_neg (by simpa using hy2)]
      exact hlen

/-- C8: with the default `QuotaConfig` (`requests_per_minute = 30`, priority
shares high 0.5 / medium 0.3 / low 0.2), along any sequence of
`wait_for_capacity` iterations taken at nondecreasing instants starting
from a fresh limiter, at most 15 admissions with priority "high" are
granted within any rolling 60-second window `(a, a + 60]`: a 16th "high"
admission would see at least 15 timestamps inside its own trailing
60-second span survive the cleaning step, making `priority_requests` reach
`max_requests = int(30 * 0.5) = 15` and the check deny admission. -/
theorem C8_high_window_bound (attempts : List (ℚ × String)) (a : ℚ)
    (hmono : List.Pairwise (fun x y : ℚ => x ≤ y) (attempts.map Prod.fst)) :
    ((rl_run cfgDefaultQuota rlInit attempts).2.filter
        (fun e => e.2 == "high" && decide (a < e.1) && decide (e.1 ≤ a + 60))).length
      ≤ 15 := by
  by_contra hcon
  push_neg at hcon
  obtain ⟨pre, e, post, hsplit, hPe, hlen⟩ :=
    filter_nth_split (fun e => e.2 == "high" && decide (a < e.1) && decide (e.1 ≤ a + 60))
      ((rl_run cfgDefaultQuota rlInit attempts).2) 15 (by omega)
  obtain ⟨share, hsh, hbound⟩ :=
    rl_run_window_inv cfgDefaultQuota attempts rlInit hmono pre e post hsplit
  have hPe2 : e.2 = "high" ∧ a < e.1 ∧ e.1 ≤ a + 60 := by
    simpa [and_assoc] using hPe
  have hsh2 : share = 1 / 2 := by
    rw [hPe2.1] at hsh
    have hval : assocFind cfgDefaultQuota.priority_levels "high" = some (1 / 2 : ℚ) := rfl
    rw [hval] at hsh
    injection hsh with hsh3
    exact hsh3.symm
  have hmax : maxReqOf cfgDefaultQuota share = 15 := by
    rw [hsh2]
    norm_num [maxReqOf, cfgDefaultQuota]
    rfl
  have hinit : rlInit.request_timestamps = ([] : List ℚ) := rfl
  rw [hmax, hinit, List.append_nil] at hbound
  have hcount : 15 ≤ (pre.map Prod.fst).countP (fun x => decide (e.1 - 60 < x)) := by
    have hson : 15 = pre.countP
        (fun e => e.2 == "high" && decide (a < e.1) && decide (e.1 ≤ a + 60)) := by
      rw [List.countP_eq_length_filter, hlen]
    have hmono2 : pre.countP
          (fun e => e.2 == "high" && decide (a < e.1) && decide (e.1 ≤ a + 60))
        ≤ pre.countP (fun y => decide (e.1 - 60 < y.1)) := by
      apply List.countP_mono_left
      intro y _ hy
      simp only [Bool.and_eq_true, beq_iff_eq, decide_eq_true_eq] at hy
      have hgt : e.1 - 60 < y.1 := by
        have h1 : a < y.1 := hy.1.2
        have h2 : e.1 ≤ a + 60 := hPe2.2.2
        linarith
      simpa using hgt
    have hmap : pre.countP (fun y => decide (e.1 - 60 < y.1))
        = (pre.map Prod.fst).countP (fun x => decide (e.1 - 60 < x)) := by
      rw [List.countP_map]
      rfl
    omega
  omega

/-- Witness for `C8_high_window_bound` on a concrete attempt trace with
nondecreasing times. -/
theorem C8_witness :
    ((rl_run cfgDefaultQuota rlInit [(0, "high"), (0, "low"), (5, "high")]).2.filter
        (fun e => e.2 == "high" && decide ((0 : ℚ) < e.1) && decide (e.1 ≤ (0 : ℚ) + 60))).length
      ≤ 15 :=
  C8_high_window_bound [(0, "high"), (0, "low"), (5, "high")] 0 (by decide)

end Aerith
